import Mathlib

/-!
Shallow embedding of the judging and contest-scoring engine of the
Backend_CP_Platform repository (Django/DRF).  The embedded code lives in:

* `submissions/judge0_service.py`  — sandbox client and verdict resolver
  (`Judge0Service.STATUS_MAP`, `parse_result`);
* `submissions/views.py`           — practice judging pass
  (`SubmissionCreateView.post`, `_update_user_status`) and the
  per-test-case numeric coercions;
* `contests/contest_participation_views.py` — contest judging pass
  (`SubmitContestSolutionView.post`, `_update_rankings`);
* `contests/models.py`             — `Contest.status` / `is_running`;
* model defaults from `submissions/models.py`, `problems/models.py`,
  `contests/contest_submission_models.py`.

Conventions of the embedding:
* Django rows become Lean structures; `null`able columns become `Option`.
* Python string truthiness is modelled explicitly (a stored `CharField`
  verdict is truthy iff its string value is nonempty).
* Sandbox-reported floats are modelled at fixed precision as integer
  micro-units (value = micro / 10^6).  No claim settled here depends on
  binary floating point; only on absence / string / number case analysis,
  truncation by Python `int()`, and multiplication by 1000.
* A Python string arriving in a numeric field is modelled together with
  the outcome of the two Python conversions the code may apply to it:
  `float(s.strip())` and `int(s * 1000)` (string repetition!); `none`
  means the conversion raises.  The judging pass itself is embedded as an
  `Except`-valued function wherever the source can raise.
* The sandbox round trip `execute_and_wait` is modelled by its observable
  outcome per test case: `none` for a transport failure (the function
  returned `None`), or the parsed result.
-/

namespace CP

/-- Verdict strings produced by `Judge0Service.parse_result` via `STATUS_MAP`. -/
inductive PVerdict
  | PENDING
  | RUNNING
  | ACCEPTED
  | WRONG_ANSWER
  | TIME_LIMIT_EXCEEDED
  | COMPILATION_ERROR
  | RUNTIME_ERROR
  | INTERNAL_ERROR
deriving DecidableEq, Repr

/-- The `STATUS_MAP` dictionary of `Judge0Service`, with the
`.get(status_id, 'INTERNAL_ERROR')` default of `parse_result`. -/
def STATUS_MAP (status_id : Nat) : PVerdict :=
  match status_id with
  | 1 => .PENDING
  | 2 => .RUNNING
  | 3 => .ACCEPTED
  | 4 => .WRONG_ANSWER
  | 5 => .TIME_LIMIT_EXCEEDED
  | 6 => .COMPILATION_ERROR
  | 7 => .RUNTIME_ERROR
  | 8 => .RUNTIME_ERROR
  | 9 => .RUNTIME_ERROR
  | 10 => .RUNTIME_ERROR
  | 11 => .RUNTIME_ERROR
  | 12 => .RUNTIME_ERROR
  | 13 => .INTERNAL_ERROR
  | 14 => .RUNTIME_ERROR
  | _ => .INTERNAL_ERROR

/-- Submission verdict enum (`Submission.Verdict` / `ContestSubmission.Verdict`). -/
inductive Verdict
  | PENDING
  | RUNNING
  | ACCEPTED
  | WRONG_ANSWER
  | TIME_LIMIT_EXCEEDED
  | MEMORY_LIMIT_EXCEEDED
  | RUNTIME_ERROR
  | COMPILATION_ERROR
  | INTERNAL_ERROR
deriving DecidableEq, Repr

/-- The stored `TextChoices` value of a verdict (the first component of each
choice pair in the Django model). -/
def Verdict.str : Verdict → String
  | .PENDING => "PENDING"
  | .RUNNING => "RUNNING"
  | .ACCEPTED => "ACCEPTED"
  | .WRONG_ANSWER => "WRONG_ANSWER"
  | .TIME_LIMIT_EXCEEDED => "TIME_LIMIT_EXCEEDED"
  | .MEMORY_LIMIT_EXCEEDED => "MEMORY_LIMIT_EXCEEDED"
  | .RUNTIME_ERROR => "RUNTIME_ERROR"
  | .COMPILATION_ERROR => "COMPILATION_ERROR"
  | .INTERNAL_ERROR => "INTERNAL_ERROR"

/-- Python truthiness of a stored verdict string (used by
`submission.verdict or ContestSubmission.Verdict.WRONG_ANSWER` in
`SubmitContestSolutionView.post`). -/
def Verdict.truthy (v : Verdict) : Bool :=
  v.str ≠ ""

/-- Per-test-case status enum (`TestCaseResult.Status`). -/
inductive TCStatus
  | PENDING
  | ACCEPTED
  | WRONG_ANSWER
  | TIME_LIMIT_EXCEEDED
  | MEMORY_LIMIT_EXCEEDED
  | RUNTIME_ERROR
deriving DecidableEq, Repr

/-- Value of the sandbox `time` field (seconds) as consumed by the judging
passes.  `num micro` is a JSON number equal to `micro / 10^6` seconds;
`str s floatMicro intOfRep` is a JSON string `s` whose Python conversion
`float(s.strip())` yields `floatMicro / 10^6` (or raises, `none`) and whose
`int(s * 1000)` — string repetition, as written in the contest view — yields
`intOfRep` (or raises, `none`). -/
inductive TimeVal
  | absent
  | num (micro : Int)
  | str (s : String) (floatMicro : Option Int) (intOfRep : Option Int)
deriving DecidableEq, Repr

/-- Python truthiness of a `time` field value. -/
def TimeVal.truthy : TimeVal → Bool
  | .absent => false
  | .num micro => micro ≠ 0
  | .str s _ _ => s ≠ ""

/-- Value of the sandbox `memory` field (KB).  `str s intOfFloat` is a string
whose `int(float(s.strip()))` yields `intOfFloat` (or raises, `none`). -/
inductive MemVal
  | absent
  | num (kb : Int)
  | str (s : String) (intOfFloat : Option Int)
deriving DecidableEq, Repr

/-- Python truthiness of a `memory` field value. -/
def MemVal.truthy : MemVal → Bool
  | .absent => false
  | .num kb => kb ≠ 0
  | .str s _ => s ≠ ""

/-- Python `int()` truncation toward zero of a micro-unit value divided by
`d` micro-units: `Int.tdiv` is exactly truncating division. -/
def pyIntOfMicro (micro d : Int) : Int :=
  Int.tdiv micro d

/-- Practice-engine coercion of `execution_time` (`SubmissionCreateView.post`):
`int(float(exec_time) * 1000)` inside `try/except (ValueError, TypeError)`,
defaulting to 0 when absent or on conversion failure. -/
def coerce_execution_time_ms : TimeVal → Int
  | .absent => 0
  | .num micro => pyIntOfMicro (micro * 1000) 1000000
  | .str _ floatMicro _ =>
    match floatMicro with
    | some micro => pyIntOfMicro (micro * 1000) 1000000
    | none => 0

/-- Practice-engine coercion of `memory_used`: `int(float(memory))` inside
`try/except`, defaulting to 0 when absent or on conversion failure. -/
def coerce_memory_kb : MemVal → Int
  | .absent => 0
  | .num kb => kb
  | .str _ intOfFloat =>
    match intOfFloat with
    | some kb => kb
    | none => 0

/-- Contest-engine update of `max_time` on an accepted case
(`SubmitContestSolutionView.post`):
`if parsed['execution_time']: max_time = max(max_time, int(parsed['execution_time'] * 1000))`
with no `try/except`.  For a string value, `s * 1000` is Python string
repetition and `int(...)` raises `ValueError` unless the repeated string is an
integer literal. -/
def contest_max_time_step (max_time : Int) : TimeVal → Except String Int
  | .absent => .ok max_time
  | .num micro =>
    if micro ≠ 0 then
      .ok (max max_time (pyIntOfMicro (micro * 1000) 1000000))
    else
      .ok max_time
  | .str s _ intOfRep =>
    if s ≠ "" then
      match intOfRep with
      | some n => .ok (max max_time n)
      | none => .error "ValueError"
    else
      .ok max_time

/-- Contest-engine update of `max_memory` on an accepted case:
`if parsed['memory_used']: max_memory = max(max_memory, parsed['memory_used'])`
with no `try/except`.  `max` between an `int` and a `str` raises `TypeError`. -/
def contest_max_memory_step (max_memory : Int) : MemVal → Except String Int
  | .absent => .ok max_memory
  | .num kb =>
    if kb ≠ 0 then .ok (max max_memory kb) else .ok max_memory
  | .str s _ =>
    if s ≠ "" then .error "TypeError" else .ok max_memory

/-- A parsed sandbox result, the return value of `Judge0Service.parse_result`
restricted to the fields the judging passes consume. -/
structure Parsed where
  verdict : PVerdict
  execution_time : TimeVal
  memory_used : MemVal
  stdout : Option String
  stderr : Option String
  compile_output : Option String
  message : Option String
deriving DecidableEq, Repr

/-- The `parse_result` method: maps the sandbox status id through
`STATUS_MAP` and carries the raw fields along. -/
def parse_result (status_id : Nat) (time : TimeVal) (memory : MemVal)
    (stdout stderr compile_output message : Option String) : Parsed :=
  { verdict := STATUS_MAP status_id
    execution_time := time
    memory_used := memory
    stdout := stdout
    stderr := stderr
    compile_output := compile_output
    message := message }

/-- Observable outcome of `Judge0Service.execute_and_wait` for one test case:
`none` models a transport failure (network error, non-201 submit, polling
exhausted — the method returns `None`), otherwise the parsed result. -/
abbrev Outcome := Option Parsed

/-- Python `str.strip()`: drop whitespace from both ends (implemented over
the character list so that it evaluates inside the kernel). -/
def pyStrip (s : String) : String :=
  ⟨((s.data.dropWhile Char.isWhitespace).reverse.dropWhile
      Char.isWhitespace).reverse⟩

/-- Python `(stderr if stderr else '') or (message if message else '')`. -/
def stderrOrMessage (stderr message : Option String) : String :=
  let se := match stderr with | some s => s | none => ""
  let me := match message with | some s => s | none => ""
  if se ≠ "" then se else me

/-- Python `stdout.strip() if stdout else ''`. -/
def strippedStdout (stdout : Option String) : String :=
  match stdout with
  | some s => if s ≠ "" then pyStrip s else ""
  | none => ""

/-- Python `x if x else ''` for an optional string field. -/
def pyStrOr (o : Option String) : String :=
  match o with
  | some s => s
  | none => ""

/-- Python truthiness of a nullable integer column. -/
def optTruthy : Option Int → Bool
  | none => false
  | some n => n ≠ 0

/-- One `TestCaseResult` row (`submissions/models.py`), restricted to the
fields the judging pass writes.  Column defaults: status `PENDING`, blank
texts, `null` numerics. -/
structure TCResultRow where
  order : Nat
  status : TCStatus
  actual_output : String
  execution_time : Option Int
  memory_used : Option Int
  error_message : String
deriving DecidableEq, Repr

/-- The practice `Submission` row fields the judging pass decides. -/
structure SubmissionRow where
  verdict : Verdict
  test_cases_passed : Nat
  total_test_cases : Nat
  execution_time : Option Int
  memory_used : Option Int
  compilation_output : String
deriving DecidableEq, Repr

/-- Mutable state of the practice judging loop in
`SubmissionCreateView.post`: the submission fields it touches, the
`TestCaseResult` rows created so far (in creation order, which is
`order_by('order')` order), and the local variables of the loop. -/
structure PracticeState where
  verdict : Verdict
  test_cases_passed : Nat
  compilation_output : String
  rows : List TCResultRow
  all_passed : Bool
  max_time : Int
  max_memory : Int
deriving DecidableEq, Repr

/-- The max-time / max-memory tracking after `tc_result.save()`:
`if tc_result.execution_time and tc_result.execution_time > max_time: ...`. -/
def trackMax (st : PracticeState) (row : TCResultRow) : PracticeState :=
  let st :=
    match row.execution_time with
    | some t => if t ≠ 0 ∧ t > st.max_time then { st with max_time := t } else st
    | none => st
  match row.memory_used with
  | some m => if m ≠ 0 ∧ m > st.max_memory then { st with max_memory := m } else st
  | none => st

/-- One iteration of the practice judging loop for the test case with the
given `order` and sandbox outcome.  Returns the new state and a flag set
when the loop `break`s (only on COMPILATION_ERROR). -/
def practiceCase (st : PracticeState) (ord : Nat) (oc : Outcome) :
    PracticeState × Bool :=
  let row0 : TCResultRow :=
    { order := ord, status := .PENDING, actual_output := "",
      execution_time := none, memory_used := none, error_message := "" }
  match oc with
  | none =>
    let row := { row0 with status := .RUNTIME_ERROR,
                           error_message := "Failed to execute code" }
    ({ st with rows := st.rows ++ [row], all_passed := false }, false)
  | some parsed =>
    let row1 := { row0 with
      actual_output := strippedStdout parsed.stdout
      execution_time := some (coerce_execution_time_ms parsed.execution_time)
      memory_used := some (coerce_memory_kb parsed.memory_used)
      error_message := stderrOrMessage parsed.stderr parsed.message }
    match parsed.verdict with
    | .ACCEPTED =>
      let row := { row1 with status := .ACCEPTED }
      let st := { st with test_cases_passed := st.test_cases_passed + 1,
                          rows := st.rows ++ [row] }
      (trackMax st row, false)
    | .WRONG_ANSWER =>
      let row := { row1 with status := .WRONG_ANSWER }
      let st := { st with all_passed := false, rows := st.rows ++ [row] }
      (trackMax st row, false)
    | .TIME_LIMIT_EXCEEDED =>
      let row := { row1 with status := .TIME_LIMIT_EXCEEDED }
      let st := { st with all_passed := false, rows := st.rows ++ [row] }
      (trackMax st row, false)
    | .RUNTIME_ERROR =>
      let row := { row1 with status := .RUNTIME_ERROR }
      let st := { st with all_passed := false, rows := st.rows ++ [row] }
      (trackMax st row, false)
    | .COMPILATION_ERROR =>
      let row := { row1 with status := .RUNTIME_ERROR,
                             error_message := "Compilation error" }
      ({ st with verdict := .COMPILATION_ERROR,
                 compilation_output := pyStrOr parsed.compile_output,
                 rows := st.rows ++ [row] }, true)
    | _ =>
      let st := { st with rows := st.rows ++ [row1] }
      (trackMax st row1, false)

/-- The practice judging loop over the ordered test cases (the dispatch
chain has no branch for PENDING / RUNNING / INTERNAL_ERROR verdicts: such a
case leaves its row PENDING and `all_passed` untouched). -/
def practiceLoop (st : PracticeState) : List (Nat × Outcome) → PracticeState
  | [] => st
  | c :: rest =>
    let (st', brk) := practiceCase st c.1 c.2
    if brk then st' else practiceLoop st' rest

/-- Final verdict resolution of `SubmissionCreateView.post` (lines 401-423):
when not COMPILATION_ERROR, ACCEPTED needs `all_passed` and a positive pass
count; otherwise the verdict is read off the first `TestCaseResult` row whose
status is not ACCEPTED (queryset ordered by `test_case__order`). -/
def practiceFinal (st : PracticeState) (total : Nat) : SubmissionRow :=
  let v :=
    if st.verdict ≠ .COMPILATION_ERROR then
      if st.all_passed ∧ st.test_cases_passed > 0 then
        Verdict.ACCEPTED
      else
        match (st.rows.filter (fun r => r.status ≠ .ACCEPTED)).head? with
        | some f =>
          match f.status with
          | .WRONG_ANSWER => Verdict.WRONG_ANSWER
          | .TIME_LIMIT_EXCEEDED => Verdict.TIME_LIMIT_EXCEEDED
          | .RUNTIME_ERROR => Verdict.RUNTIME_ERROR
          | _ => st.verdict
        | none => Verdict.INTERNAL_ERROR
    else st.verdict
  { verdict := v
    test_cases_passed := st.test_cases_passed
    total_test_cases := total
    execution_time := if st.max_time > 0 then some st.max_time else none
    memory_used := if st.max_memory > 0 then some st.max_memory else none
    compilation_output := st.compilation_output }

/-- Initial loop state: the submission is created with verdict RUNNING, and
the loop locals start as `all_passed = True`, `max_time = max_memory = 0`. -/
def practiceInit : PracticeState :=
  { verdict := .RUNNING, test_cases_passed := 0, compilation_output := "",
    rows := [], all_passed := true, max_time := 0, max_memory := 0 }

/-- The whole practice judging pass, parameterized by the sandbox outcome of
each active test case in `order_by('order')` order. -/
def judgePractice (outcomes : List Outcome) : SubmissionRow × List TCResultRow :=
  let st := practiceLoop practiceInit outcomes.enum
  (practiceFinal st outcomes.length, st.rows)

/-- Problem difficulty (`Problem.Difficulty`). -/
inductive Difficulty
  | EASY
  | MEDIUM
  | HARD
deriving DecidableEq, Repr

/-- User statistics columns touched by `_update_user_status`. -/
structure UserRow where
  total_solved : Int
  easy_solved : Int
  medium_solved : Int
  hard_solved : Int
deriving DecidableEq, Repr

/-- Practice `Problem` statistics columns. -/
structure ProblemRow where
  difficulty : Difficulty
  total_submissions : Int
  accepted_submissions : Int
  total_solved : Int
deriving DecidableEq, Repr

/-- Solve-status enum shared by the practice and contest
`ProblemSolveStatus` models. -/
inductive SolveState
  | ATTEMPTED
  | SOLVED
deriving DecidableEq, Repr

/-- Practice `ProblemSolveStatus` row (`problems/models.py`). -/
structure SolveStatusRow where
  status : SolveState
  first_solved_at : Option Int
deriving DecidableEq, Repr

/-- `Problem.increment_submissions`. -/
def increment_submissions (p : ProblemRow) : ProblemRow :=
  { p with total_submissions := p.total_submissions + 1 }

/-- `Problem.increment_accepted`. -/
def increment_accepted (p : ProblemRow) : ProblemRow :=
  { p with accepted_submissions := p.accepted_submissions + 1 }

/-- `Problem.increment_solved`. -/
def increment_solved (p : ProblemRow) : ProblemRow :=
  { p with total_solved := p.total_solved + 1 }

/-- `SubmissionCreateView._update_user_status`: `get_or_create` the solve
status (defaults `{'status': 'ATTEMPTED'}`), then, only when accepted and
the status is not already SOLVED, transition to SOLVED, stamp
`first_solved_at`, increment the problem's `total_solved`, and bump the
user's total and per-difficulty counters. -/
def update_user_status (user : UserRow) (problem : ProblemRow)
    (row : Option SolveStatusRow) (is_accepted : Bool) (now : Int) :
    UserRow × ProblemRow × SolveStatusRow :=
  let status_obj :=
    match row with
    | some r => r
    | none => { status := .ATTEMPTED, first_solved_at := none }
  if is_accepted ∧ status_obj.status ≠ .SOLVED then
    let status_obj := { status_obj with status := .SOLVED,
                                        first_solved_at := some now }
    let problem := increment_solved problem
    let user := { user with total_solved := user.total_solved + 1 }
    let user :=
      match problem.difficulty with
      | .EASY => { user with easy_solved := user.easy_solved + 1 }
      | .MEDIUM => { user with medium_solved := user.medium_solved + 1 }
      | .HARD => { user with hard_solved := user.hard_solved + 1 }
    (user, problem, status_obj)
  else
    (user, problem, status_obj)

/-- The statistics tail of `SubmissionCreateView.post` after judging:
`problem.increment_submissions()`, `increment_accepted()` when the final
verdict is ACCEPTED (the `is_accepted` property), then
`_update_user_status`. -/
def practice_post_judging (user : UserRow) (problem : ProblemRow)
    (row : Option SolveStatusRow) (sub : SubmissionRow) (now : Int) :
    UserRow × ProblemRow × SolveStatusRow :=
  let problem := increment_submissions problem
  let problem :=
    if sub.verdict = .ACCEPTED then increment_accepted problem else problem
  update_user_status user problem row (sub.verdict = .ACCEPTED) now

/-- The `ContestSubmission` row fields the contest judging pass decides
(the contest engine persists no per-test-case rows, only the counters). -/
structure ContestSubRow where
  verdict : Verdict
  test_cases_passed : Nat
  total_test_cases : Nat
  execution_time : Option Int
  memory_used : Option Int
  error_message : String
  compilation_output : String
deriving DecidableEq, Repr

/-- Contest-scoped `ProblemSolveStatus` row
(`contests/contest_submission_models.py`).  Model defaults: status
ATTEMPTED, score 0, attempts 0, wrong_attempts 0, null times. -/
structure PStatusRow where
  status : SolveState
  score : Int
  attempts : Int
  wrong_attempts : Int
  solve_time : Option Int
  first_solved_at : Option Int
deriving DecidableEq, Repr

/-- `ContestParticipant` row.  Defaults: all counters 0, rank null. -/
structure ParticipantRow where
  userId : Nat
  total_score : Int
  problems_solved : Int
  total_time : Int
  penalty_time : Int
  rank : Option Int
  last_submission_time : Option Int
deriving DecidableEq, Repr

/-- Mutable state of the contest judging loop in
`SubmitContestSolutionView.post`: the submission fields it touches plus the
loop locals. -/
structure ContestState where
  verdict : Verdict
  test_cases_passed : Nat
  error_message : String
  compilation_output : String
  all_passed : Bool
  max_time : Int
  max_memory : Int
deriving DecidableEq, Repr

/-- One iteration of the contest judging loop.  A transport failure only
clears `all_passed` and `continue`s; an accepted case increments the pass
count and runs the unguarded numeric max updates (which can raise, hence
`Except`); a compilation error sets the verdict and `break`s; any other
verdict clears `all_passed`, overwrites the submission verdict when it is
WRONG_ANSWER / TIME_LIMIT_EXCEEDED / RUNTIME_ERROR, and stores the error
message. -/
def contestCase (st : ContestState) (oc : Outcome) :
    Except String (ContestState × Bool) :=
  match oc with
  | none => .ok ({ st with all_passed := false }, false)
  | some parsed =>
    match parsed.verdict with
    | .ACCEPTED =>
      let st := { st with test_cases_passed := st.test_cases_passed + 1 }
      match contest_max_time_step st.max_time parsed.execution_time with
      | .error e => .error e
      | .ok mt =>
        match contest_max_memory_step st.max_memory parsed.memory_used with
        | .error e => .error e
        | .ok mm => .ok ({ st with max_time := mt, max_memory := mm }, false)
    | .COMPILATION_ERROR =>
      .ok ({ st with verdict := .COMPILATION_ERROR,
                     compilation_output := pyStrOr parsed.compile_output,
                     all_passed := false }, true)
    | v =>
      let st := { st with all_passed := false }
      let st :=
        match v with
        | .WRONG_ANSWER => { st with verdict := .WRONG_ANSWER }
        | .TIME_LIMIT_EXCEEDED => { st with verdict := .TIME_LIMIT_EXCEEDED }
        | .RUNTIME_ERROR => { st with verdict := .RUNTIME_ERROR }
        | _ => st
      .ok ({ st with
               error_message := stderrOrMessage parsed.stderr parsed.message },
           false)

/-- The contest judging loop over the ordered test cases. -/
def contestLoop (st : ContestState) : List Outcome → Except String ContestState
  | [] => .ok st
  | oc :: rest =>
    match contestCase st oc with
    | .error e => .error e
    | .ok (st', brk) => if brk then .ok st' else contestLoop st' rest

/-- Initial contest loop state (submission created with verdict RUNNING). -/
def contestInit : ContestState :=
  { verdict := .RUNNING, test_cases_passed := 0, error_message := "",
    compilation_output := "", all_passed := true, max_time := 0,
    max_memory := 0 }

/-- Post-loop verdict resolution and scoring of
`SubmitContestSolutionView.post` (lines 152-173).  When not
COMPILATION_ERROR: if `all_passed`, the verdict becomes ACCEPTED and the
scoring side effects run unconditionally (SOLVED, `first_solved_at`,
`score`, `problems_solved`, `total_score`); otherwise
`submission.verdict = submission.verdict or WRONG_ANSWER` (a no-op for a
truthy stored verdict — and `RUNNING` is a nonempty string).  Afterwards
`total_time = (now - contest.start_time).total_seconds() // 60` and the
last-submission stamp are written regardless of verdict. -/
def contestFinalize (st : ContestState) (total : Nat) (points : Int)
    (ps : PStatusRow) (part : ParticipantRow) (now start_time : Int) :
    ContestSubRow × PStatusRow × ParticipantRow :=
  let resolved :=
    if st.verdict ≠ .COMPILATION_ERROR then
      if st.all_passed then
        (Verdict.ACCEPTED,
         { ps with status := .SOLVED, first_solved_at := some now,
                   score := points },
         { part with problems_solved := part.problems_solved + 1,
                     total_score := part.total_score + points })
      else
        ((if st.verdict.truthy then st.verdict else Verdict.WRONG_ANSWER),
         ps, part)
    else (st.verdict, ps, part)
  let v := resolved.1
  let ps := resolved.2.1
  let part := resolved.2.2
  let sub : ContestSubRow :=
    { verdict := v
      test_cases_passed := st.test_cases_passed
      total_test_cases := total
      execution_time := if st.max_time > 0 then some st.max_time else none
      memory_used := if st.max_memory > 0 then some st.max_memory else none
      error_message := st.error_message
      compilation_output := st.compilation_output }
  let part := { part with total_time := Int.fdiv (now - start_time) 60,
                          last_submission_time := some now }
  (sub, ps, part)

/-- Stand-alone contest judging pass (loop plus finalize) against a fresh
participant and solve status: used to observe the verdict logic without the
surrounding handler. -/
def judgeContest (outcomes : List Outcome) (points : Int)
    (ps : PStatusRow) (part : ParticipantRow) (now start_time : Int) :
    Except String (ContestSubRow × PStatusRow × ParticipantRow) :=
  match contestLoop contestInit outcomes with
  | .error e => .error e
  | .ok st => .ok (contestFinalize st outcomes.length points ps part now start_time)

/-- The ordering used by `_update_rankings`:
`order_by('-total_score', 'total_time')` — `a` may precede `b` iff `a` has
strictly more points, or the same points and no more elapsed time. -/
def rank_le (a b : ParticipantRow) : Bool :=
  (b.total_score < a.total_score) ||
    (a.total_score == b.total_score && a.total_time ≤ b.total_time)

/-- The comparator as a relation (for the sortedness lemmas). -/
def rank_rel (a b : ParticipantRow) : Prop :=
  rank_le a b = true

instance : DecidableRel rank_rel :=
  fun a b => inferInstanceAs (Decidable (rank_le a b = true))

/-- `SubmitContestSolutionView._update_rankings`: sort all participants of
the contest by the comparator (the database `ORDER BY` is modelled by a
comparison sort) and assign `rank` from `enumerate(participants, 1)`. -/
def update_rankings (ps : List ParticipantRow) : List ParticipantRow :=
  (List.insertionSort rank_rel ps).enum.map fun q =>
    { q.2 with rank := some (q.1 + 1) }

/-- The contest row (`contests/models.py`), restricted to the columns the
submit handler reads.  Times are Unix seconds. -/
structure ContestRec where
  id : Nat
  is_active : Bool
  start_time : Int
  end_time : Int
deriving DecidableEq, Repr

/-- `Contest.Status` choices. -/
inductive CStatus
  | NOT_STARTED
  | ACTIVE
  | ENDED
deriving DecidableEq, Repr

/-- The `Contest.status` property: NOT_STARTED before `start_time`, ENDED
after `end_time`, ACTIVE in between (both bounds inclusive). -/
def contestStatus (c : ContestRec) (now : Int) : CStatus :=
  if now < c.start_time then .NOT_STARTED
  else if now > c.end_time then .ENDED
  else .ACTIVE

/-- The `Contest.is_running` property. -/
def contestIsRunning (c : ContestRec) (now : Int) : Bool :=
  contestStatus c now == .ACTIVE

/-- A `ContestProblem` row, restricted to the columns the handler reads. -/
structure CProblemRec where
  id : Nat
  contestId : Nat
  is_active : Bool
  points : Int
deriving DecidableEq, Repr

/-- The body of a contest submit request after deserialization. -/
structure SubmitReq where
  userId : Nat
  problem_id : Nat
  code : String
  language : String
deriving DecidableEq, Repr

/-- `ContestSubmission.Language` choice values. -/
def LANGUAGE_CHOICES : List String :=
  ["PYTHON", "JAVA", "CPP", "JAVASCRIPT", "C"]

/-- `ContestSubmissionCreateSerializer.validate_code`: rejects empty or
whitespace-only code and code longer than 50000 characters. -/
def validate_code (code : String) : Bool :=
  (code ≠ "" && pyStrip code ≠ "") && code.length ≤ 50000

/-- The whole `ContestSubmissionCreateSerializer.is_valid` check. -/
def serializerValid (req : SubmitReq) : Bool :=
  LANGUAGE_CHOICES.contains req.language && validate_code req.code

/-- The database rows a contest submission may read or write.
`registrations` holds `(userId, contestId)` pairs; `participants` pairs a
contest id with a participant row (unique per `(contest, user)`, as enforced
by `unique_together`); `statuses` and `submissions` are keyed by
`(contestId, userId, problemId)`. -/
structure World where
  registrations : List (Nat × Nat)
  problems : List CProblemRec
  participants : List (Nat × ParticipantRow)
  statuses : List (Nat × Nat × Nat × PStatusRow)
  submissions : List (Nat × Nat × Nat × ContestSubRow)
deriving DecidableEq, Repr

/-- The `ContestProblem.objects.get(id=..., contest=contest, is_active=True)`
lookup. -/
def findProblem (w : World) (c : ContestRec) (pid : Nat) : Option CProblemRec :=
  w.problems.find? fun p => p.id == pid && p.contestId == c.id && p.is_active

/-- `ContestParticipant.objects.get_or_create(contest=..., user=...)`:
the existing row, or one with the model's defaults. -/
def getParticipant (w : World) (cid uid : Nat) : ParticipantRow :=
  match w.participants.find? (fun q => q.1 == cid && q.2.userId == uid) with
  | some q => q.2
  | none =>
    { userId := uid, total_score := 0, problems_solved := 0, total_time := 0,
      penalty_time := 0, rank := none, last_submission_time := none }

/-- `ProblemSolveStatus.objects.get_or_create(participant=..., problem=...)`. -/
def getStatus (w : World) (cid uid pid : Nat) : PStatusRow :=
  match w.statuses.find? (fun q => q.1 == cid && q.2.1 == uid && q.2.2.1 == pid) with
  | some q => q.2.2.2
  | none =>
    { status := .ATTEMPTED, score := 0, attempts := 0, wrong_attempts := 0,
      solve_time := none, first_solved_at := none }

/-- Saving a participant row (update in place, or insert when it was just
created by `get_or_create`). -/
def setParticipant (w : World) (cid : Nat) (row : ParticipantRow) : World :=
  if w.participants.any (fun q => q.1 == cid && q.2.userId == row.userId) then
    { w with participants := w.participants.map fun q =>
        if q.1 == cid && q.2.userId == row.userId then (cid, row) else q }
  else
    { w with participants := w.participants ++ [(cid, row)] }

/-- Saving a solve-status row. -/
def setStatus (w : World) (cid uid pid : Nat) (row : PStatusRow) : World :=
  if w.statuses.any (fun q => q.1 == cid && q.2.1 == uid && q.2.2.1 == pid) then
    { w with statuses := w.statuses.map fun q =>
        if q.1 == cid && q.2.1 == uid && q.2.2.1 == pid then
          (cid, uid, pid, row)
        else q }
  else
    { w with statuses := w.statuses ++ [(cid, uid, pid, row)] }

/-- `_update_rankings(contest)` over the world: re-rank every participant of
that contest (participant rows are unique per `(contest, user)`). -/
def updateWorldRankings (w : World) (cid : Nat) : World :=
  let mine := (w.participants.filter (fun q => q.1 == cid)).map (·.2)
  let ranked := update_rankings mine
  { w with participants := w.participants.map fun q =>
      if q.1 == cid then
        match ranked.find? (fun r => r.userId == q.2.userId) with
        | some r => (cid, r)
        | none => q
      else q }

/-- Rejection reasons of `SubmitContestSolutionView.post`, in source order. -/
inductive Reject
  | contestNotFound
  | contestNotActive
  | notRegistered
  | invalidPayload
  | problemNotFound
deriving DecidableEq, Repr

/-- Result of one contest submit request.  `crashed` models an uncaught
exception escaping the judging loop (the rows saved before the loop are
kept: Django runs this view without a transaction). -/
inductive SubmitResult
  | rejected (r : Reject) (w : World)
  | crashed (w : World)
  | completed (w : World) (sub : ContestSubRow)
deriving DecidableEq, Repr

/-- The full `SubmitContestSolutionView.post` handler: precondition checks in
source order (contest active flag, running window, registration, payload
validation, problem lookup) — each failure returns before any row is
created — then submission creation, `get_or_create` of participant and
solve status, the unconditional `attempts` increment, the judging loop,
finalize/scoring, saves, and the ranking pass. -/
def submit_contest_solution (w : World) (c : ContestRec) (now : Int)
    (req : SubmitReq) (outcomes : List Outcome) : SubmitResult :=
  if ¬ c.is_active then .rejected .contestNotFound w
  else if ¬ contestIsRunning c now then .rejected .contestNotActive w
  else if ¬ w.registrations.contains (req.userId, c.id) then
    .rejected .notRegistered w
  else if ¬ serializerValid req then .rejected .invalidPayload w
  else
    match findProblem w c req.problem_id with
    | none => .rejected .problemNotFound w
    | some problem =>
      let part0 := getParticipant w c.id req.userId
      let ps0 := getStatus w c.id req.userId problem.id
      let ps1 := { ps0 with attempts := ps0.attempts + 1 }
      let runningSub : ContestSubRow :=
        { verdict := .RUNNING, test_cases_passed := 0,
          total_test_cases := outcomes.length, execution_time := none,
          memory_used := none, error_message := "", compilation_output := "" }
      let wPre := setStatus (setParticipant w c.id part0) c.id req.userId
        problem.id ps1
      match contestLoop contestInit outcomes with
      | .error _ =>
        .crashed { wPre with submissions :=
          wPre.submissions ++ [(c.id, req.userId, problem.id, runningSub)] }
      | .ok st =>
        let fin := contestFinalize st outcomes.length problem.points ps1 part0
          now c.start_time
        let sub := fin.1
        let ps2 := fin.2.1
        let part2 := fin.2.2
        let w2 := { wPre with submissions :=
          wPre.submissions ++ [(c.id, req.userId, problem.id, sub)] }
        let w2 := setStatus w2 c.id req.userId problem.id ps2
        let w2 := setParticipant w2 c.id part2
        let w2 := updateWorldRankings w2 c.id
        .completed w2 sub

/-- An outcome whose parsed verdict is ACCEPTED. -/
def isAccOc : Outcome → Bool
  | none => false
  | some p => p.verdict == .ACCEPTED

/-- An outcome the judging loops treat as a failed case: a transport failure
or a WRONG_ANSWER / TIME_LIMIT_EXCEEDED / RUNTIME_ERROR verdict.  (PENDING,
RUNNING and INTERNAL_ERROR verdicts fall through every branch of both loops
and are treated as neither passed nor failed.) -/
def failingOc : Outcome → Bool
  | none => true
  | some p =>
    p.verdict == .WRONG_ANSWER || p.verdict == .TIME_LIMIT_EXCEEDED ||
      p.verdict == .RUNTIME_ERROR

/-- An outcome with a recognized terminal per-case verdict: a transport
failure, or ACCEPTED / WRONG_ANSWER / TIME_LIMIT_EXCEEDED / RUNTIME_ERROR. -/
def recognizedOc (oc : Outcome) : Bool :=
  isAccOc oc || failingOc oc

/-- A `time` field the contest max-update consumes without raising (absent
or numeric — not a string). -/
def numSafeT : TimeVal → Bool
  | .str _ _ _ => false
  | _ => true

/-- A `memory` field the contest max-update consumes without raising. -/
def numSafeM : MemVal → Bool
  | .str _ _ => false
  | _ => true

/-- An outcome the contest loop consumes without raising and with a
recognized terminal verdict. -/
def tameOc : Outcome → Bool
  | none => true
  | some p =>
    (p.verdict == .ACCEPTED || p.verdict == .WRONG_ANSWER ||
        p.verdict == .TIME_LIMIT_EXCEEDED || p.verdict == .RUNTIME_ERROR) &&
      numSafeT p.execution_time && numSafeM p.memory_used

/-- The `TestCaseResult` status the practice loop records for one outcome
(as long as no earlier COMPILATION_ERROR broke the loop). -/
def rowStatusOc : Outcome → TCStatus
  | none => .RUNTIME_ERROR
  | some p =>
    match p.verdict with
    | .ACCEPTED => .ACCEPTED
    | .WRONG_ANSWER => .WRONG_ANSWER
    | .TIME_LIMIT_EXCEEDED => .TIME_LIMIT_EXCEEDED
    | .RUNTIME_ERROR => .RUNTIME_ERROR
    | .COMPILATION_ERROR => .RUNTIME_ERROR
    | _ => .PENDING

/-- The full `TestCaseResult` row the practice loop records for one
COMPILATION_ERROR-free outcome. -/
def ocRow (ord : Nat) : Outcome → TCResultRow
  | none =>
    { order := ord, status := .RUNTIME_ERROR, actual_output := "",
      execution_time := none, memory_used := none,
      error_message := "Failed to execute code" }
  | some parsed =>
    { order := ord, status := rowStatusOc (some parsed),
      actual_output := strippedStdout parsed.stdout,
      execution_time := some (coerce_execution_time_ms parsed.execution_time),
      memory_used := some (coerce_memory_kb parsed.memory_used),
      error_message := stderrOrMessage parsed.stderr parsed.message }

/-- The practice submission verdict induced by one failing outcome. -/
def failVerdict : Outcome → Verdict
  | none => .RUNTIME_ERROR
  | some p =>
    match p.verdict with
    | .WRONG_ANSWER => .WRONG_ANSWER
    | .TIME_LIMIT_EXCEEDED => .TIME_LIMIT_EXCEEDED
    | _ => .RUNTIME_ERROR

/-- The contest submission verdict one outcome writes in the loop (`none`
when the outcome writes no verdict: transport failures and accepted cases). -/
def contestFailV : Outcome → Option Verdict
  | none => none
  | some p =>
    match p.verdict with
    | .WRONG_ANSWER => some .WRONG_ANSWER
    | .TIME_LIMIT_EXCEEDED => some .TIME_LIMIT_EXCEEDED
    | .RUNTIME_ERROR => some .RUNTIME_ERROR
    | _ => none

/-- Folding the loop's verdict overwrites over a case list: each case that
writes a verdict replaces the previous one. -/
def lastSetVerdict (ocs : List Outcome) (v : Verdict) : Verdict :=
  ocs.foldl
    (fun v oc => match contestFailV oc with | some v' => v' | none => v) v

/-- Observer: the submission row of a completed contest judging pass. -/
def contestVerdictOf
    (r : Except String (ContestSubRow × PStatusRow × ParticipantRow)) :
    Option Verdict :=
  match r with
  | .ok x => some x.1.verdict
  | .error _ => none

/-- Observer: submission counters of a completed contest judging pass. -/
def contestCountersOf
    (r : Except String (ContestSubRow × PStatusRow × ParticipantRow)) :
    Option (Verdict × Nat) :=
  match r with
  | .ok x => some (x.1.verdict, x.1.test_cases_passed)
  | .error _ => none

/-- Observer: scoring state of a completed contest judging pass. -/
def contestScoringOf
    (r : Except String (ContestSubRow × PStatusRow × ParticipantRow)) :
    Option (Int × Int × SolveState × Int × Option Int) :=
  match r with
  | .ok x =>
    some (x.2.2.problems_solved, x.2.2.total_score, x.2.1.status,
      x.2.1.score, x.2.1.first_solved_at)
  | .error _ => none

/-- Observer: the world after a handler run that completed judging. -/
def completedWorld : SubmitResult → Option World
  | .completed w _ => some w
  | _ => none

/-- Observer: the final world of any handler run (rejections and crashes
keep the world they stopped with). -/
def worldAfter : SubmitResult → World
  | .rejected _ w => w
  | .crashed w => w
  | .completed w _ => w

/-- Fixture: a parsed sandbox result with verdict ACCEPTED and empty fields. -/
def acceptedParsed : Parsed :=
  { verdict := .ACCEPTED, execution_time := .absent, memory_used := .absent,
    stdout := none, stderr := none, compile_output := none, message := none }

/-- Fixture: a WRONG_ANSWER result. -/
def wrongAnswerParsed : Parsed :=
  { acceptedParsed with verdict := .WRONG_ANSWER }

/-- Fixture: a TIME_LIMIT_EXCEEDED result. -/
def tleParsed : Parsed :=
  { acceptedParsed with verdict := .TIME_LIMIT_EXCEEDED }

/-- Fixture: a RUNTIME_ERROR result. -/
def runtimeErrorParsed : Parsed :=
  { acceptedParsed with verdict := .RUNTIME_ERROR }

/-- Fixture: a sandbox-reported INTERNAL_ERROR (status id 13), as produced
by `parse_result`. -/
def internalErrorParsed : Parsed :=
  parse_result 13 .absent .absent none none none none

/-- Fixture: a solve-status row as it stands right after the unconditional
`attempts` increment of a first submission. -/
def freshStatusRow : PStatusRow :=
  { status := .ATTEMPTED, score := 0, attempts := 1, wrong_attempts := 0,
    solve_time := none, first_solved_at := none }

/-- Fixture: a fresh participant row for user 7. -/
def freshParticipantRow : ParticipantRow :=
  { userId := 7, total_score := 0, problems_solved := 0, total_time := 0,
    penalty_time := 0, rank := none, last_submission_time := none }

/-- Fixture: a contest running from 0 to 3600 Unix seconds. -/
def fixtureContest : ContestRec :=
  { id := 1, is_active := true, start_time := 0, end_time := 3600 }

/-- Fixture: problem 5 of contest 1, worth 100 points. -/
def fixtureProblem : CProblemRec :=
  { id := 5, contestId := 1, is_active := true, points := 100 }

/-- Fixture: a valid submit request from user 7 for problem 5. -/
def fixtureReq : SubmitReq :=
  { userId := 7, problem_id := 5, code := "print(1)", language := "PYTHON" }

/-- Fixture: a world where user 7 is registered for contest 1 and has not
submitted yet. -/
def fixtureWorld : World :=
  { registrations := [(7, 1)], problems := [fixtureProblem],
    participants := [], statuses := [], submissions := [] }

/-- Fixture: the solve status of user 7 on problem 5 after a first accepted
submission (SOLVED, 100 points scored, 3 attempts so far). -/
def solvedStatusRow : PStatusRow :=
  { status := .SOLVED, score := 100, attempts := 3, wrong_attempts := 0,
    solve_time := none, first_solved_at := some 40 }

/-- Fixture: the participant row of user 7 after that first solve. -/
def solvedParticipantRow : ParticipantRow :=
  { userId := 7, total_score := 100, problems_solved := 1, total_time := 0,
    penalty_time := 0, rank := some 1, last_submission_time := some 40 }

/-- Fixture: the world of `fixtureWorld` after user 7 already solved
problem 5. -/
def solvedWorld : World :=
  { fixtureWorld with
    participants := [(1, solvedParticipantRow)],
    statuses := [(1, 7, 5, solvedStatusRow)] }

/-- Fixture: the world after user 7 submits one WRONG_ANSWER solution to
problem 5 of the fresh fixture world. -/
def afterWrongWorld : World :=
  worldAfter
    (submit_contest_solution fixtureWorld fixtureContest 100 fixtureReq
      [some wrongAnswerParsed])

/-- Fixture: participant A of the rank-ordering property (score 300,
time 40). -/
def partA : ParticipantRow :=
  { userId := 1, total_score := 300, problems_solved := 3, total_time := 40,
    penalty_time := 0, rank := none, last_submission_time := none }

/-- Fixture: participant B (score 300, time 20). -/
def partB : ParticipantRow :=
  { userId := 2, total_score := 300, problems_solved := 3, total_time := 20,
    penalty_time := 0, rank := none, last_submission_time := none }

/-- Fixture: participant C (score 200, time 10). -/
def partC : ParticipantRow :=
  { userId := 3, total_score := 200, problems_solved := 2, total_time := 10,
    penalty_time := 0, rank := none, last_submission_time := none }

/-- A participant row with its cached rank cleared (used to compare ranking
output with its input modulo the assigned ranks). -/
def stripRank (p : ParticipantRow) : ParticipantRow :=
  { p with rank := none }

/-- The user counter matching a difficulty (`easy_solved` / `medium_solved`
/ `hard_solved`). -/
def diffCount (u : UserRow) : Difficulty → Int
  | .EASY => u.easy_solved
  | .MEDIUM => u.medium_solved
  | .HARD => u.hard_solved

/-- Fixture: a user with all counters zero. -/
def zeroUser : UserRow :=
  { total_solved := 0, easy_solved := 0, medium_solved := 0, hard_solved := 0 }

/-- Fixture: an EASY practice problem with zeroed statistics. -/
def easyProblem : ProblemRow :=
  { difficulty := .EASY, total_submissions := 0, accepted_submissions := 0,
    total_solved := 0 }

/-- Fixture: the practice submission row obtained by judging one accepted
test case. -/
def acceptedSub : SubmissionRow :=
  (judgePractice [some acceptedParsed]).1

/-- Fixture: an accepted result whose `time` field is the string "0.095", as
the sandbox API reports it (`float("0.095")` = 0.095; `int("0.095" * 1000)`
raises `ValueError`). -/
def acceptedStrTimeParsed : Parsed :=
  { acceptedParsed with execution_time := .str "0.095" (some 95000) none }

instance : IsTotal ParticipantRow rank_rel := by
  constructor
  intro a b
  simp only [rank_rel, rank_le, Bool.or_eq_true, Bool.and_eq_true,
    decide_eq_true_eq, beq_iff_eq]
  omega

instance : IsTrans ParticipantRow rank_rel := by
  constructor
  intro a b c hab hbc
  simp only [rank_rel, rank_le, Bool.or_eq_true, Bool.and_eq_true,
    decide_eq_true_eq, beq_iff_eq] at hab hbc ⊢
  omega

end CP

/-! ## Helper lemmas and claim theorems -/

namespace CP

theorem Verdict.truthy_eq_true (v : Verdict) : v.truthy = true := by
  cases v <;> decide

theorem ranksAux (l : List ParticipantRow) (n : Nat) :
    ((List.enumFrom n l).map
        (fun q => { q.2 with rank := some ((q.1 : Int) + 1) })).map (·.rank)
      = (List.range' n l.length).map (fun k => some ((k : Int) + 1)) := by
  induction l generalizing n with
  | nil => simp
  | cons x xs ih => simp [List.enumFrom, List.range', ih]

theorem update_rankings_ranks (ps : List ParticipantRow) :
    (update_rankings ps).map (·.rank)
      = (List.range ps.length).map (fun i => some ((i : Int) + 1)) := by
  have h := ranksAux (List.insertionSort rank_rel ps) 0
  simp only [update_rankings, List.enum]
  rw [h, List.length_insertionSort, List.range_eq_range']

theorem rank_le_setRank (a b : ParticipantRow) (r r' : Option Int) :
    rank_le { a with rank := r } { b with rank := r' } = rank_le a b := rfl

theorem update_rankings_sorted (ps : List ParticipantRow) :
    List.Pairwise rank_rel (update_rankings ps) := by
  have hs : List.Pairwise rank_rel (List.insertionSort rank_rel ps) :=
    List.sorted_insertionSort rank_rel ps
  have hs' : List.Pairwise (fun p q : Nat × ParticipantRow => rank_rel p.2 q.2)
      (List.insertionSort rank_rel ps).enum := by
    have h2 := (List.pairwise_map
      (f := (Prod.snd : Nat × ParticipantRow → ParticipantRow))
      (R := rank_rel)
      (l := (List.insertionSort rank_rel ps).enum)).mp
    rw [List.enum_map_snd] at h2
    exact h2 hs
  rw [update_rankings, List.pairwise_map]
  exact hs'.imp (fun h => by
    simpa [rank_rel, rank_le_setRank] using h)

theorem stripRank_setRank (p : ParticipantRow) (r : Option Int) :
    stripRank { p with rank := r } = stripRank p := rfl

theorem update_rankings_perm (ps : List ParticipantRow) :
    ((update_rankings ps).map stripRank).Perm (ps.map stripRank) := by
  have h1 : (update_rankings ps).map stripRank
      = (List.insertionSort rank_rel ps).map stripRank := by
    rw [update_rankings, List.map_map]
    have h2 : (stripRank ∘ fun q : Nat × ParticipantRow =>
        { q.2 with rank := some ((q.1 : Int) + 1) })
        = stripRank ∘ (Prod.snd : Nat × ParticipantRow → ParticipantRow) := by
      funext q
      simp [Function.comp, stripRank_setRank]
    rw [h2, ← List.map_map, List.enum_map_snd]
  rw [h1]
  exact (List.perm_insertionSort rank_rel ps).map stripRank


theorem trackMax_rows (st : PracticeState) (row : TCResultRow) :
    (trackMax st row).rows = st.rows := by
  unfold trackMax
  cases row.execution_time <;> cases row.memory_used <;>
    simp only [] <;> (try split_ifs) <;> simp

theorem trackMax_verdict (st : PracticeState) (row : TCResultRow) :
    (trackMax st row).verdict = st.verdict := by
  unfold trackMax
  cases row.execution_time <;> cases row.memory_used <;>
    simp only [] <;> (try split_ifs) <;> simp

theorem trackMax_passed (st : PracticeState) (row : TCResultRow) :
    (trackMax st row).test_cases_passed = st.test_cases_passed := by
  unfold trackMax
  cases row.execution_time <;> cases row.memory_used <;>
    simp only [] <;> (try split_ifs) <;> simp

theorem trackMax_all_passed (st : PracticeState) (row : TCResultRow) :
    (trackMax st row).all_passed = st.all_passed := by
  unfold trackMax
  cases row.execution_time <;> cases row.memory_used <;>
    simp only [] <;> (try split_ifs) <;> simp

theorem trackMax_compilation (st : PracticeState) (row : TCResultRow) :
    (trackMax st row).compilation_output = st.compilation_output := by
  unfold trackMax
  cases row.execution_time <;> cases row.memory_used <;>
    simp only [] <;> (try split_ifs) <;> simp

theorem practiceCase_spec (st : PracticeState) (ord : Nat) (oc : Outcome)
    (h : recognizedOc oc = true) :
    (practiceCase st ord oc).2 = false ∧
    (practiceCase st ord oc).1.rows = st.rows ++ [ocRow ord oc] ∧
    (practiceCase st ord oc).1.verdict = st.verdict ∧
    (practiceCase st ord oc).1.compilation_output = st.compilation_output ∧
    (practiceCase st ord oc).1.test_cases_passed
      = st.test_cases_passed + (if isAccOc oc then 1 else 0) ∧
    (practiceCase st ord oc).1.all_passed
      = (st.all_passed && !(failingOc oc)) := by
  cases oc with
  | none => simp [practiceCase, ocRow, isAccOc, failingOc]
  | some p =>
    cases hv : p.verdict <;>
      simp_all [practiceCase, recognizedOc, isAccOc, failingOc, ocRow,
        rowStatusOc, trackMax_rows, trackMax_verdict, trackMax_passed,
        trackMax_all_passed, trackMax_compilation]


theorem practiceLoop_spec (cs : List (Nat × Outcome)) (st : PracticeState)
    (h : ∀ c ∈ cs, recognizedOc c.2 = true) :
    (practiceLoop st cs).rows = st.rows ++ cs.map (fun c => ocRow c.1 c.2) ∧
    (practiceLoop st cs).verdict = st.verdict ∧
    (practiceLoop st cs).compilation_output = st.compilation_output ∧
    (practiceLoop st cs).test_cases_passed
      = st.test_cases_passed + (cs.filter (fun c => isAccOc c.2)).length ∧
    (practiceLoop st cs).all_passed
      = (st.all_passed && cs.all (fun c => !(failingOc c.2))) := by
  induction cs generalizing st with
  | nil => simp [practiceLoop]
  | cons c cs ih =>
    obtain ⟨ord, oc⟩ := c
    have hc := h _ (List.mem_cons_self ..)
    have hcs : ∀ x ∈ cs, recognizedOc x.2 = true :=
      fun x hx => h x (List.mem_cons_of_mem _ hx)
    obtain ⟨hb, hr, hv, hco, hp, hap⟩ := practiceCase_spec st ord oc hc
    obtain ⟨i1, i2, i3, i4, i5⟩ := ih (practiceCase st ord oc).1 hcs
    have hl : practiceLoop st ((ord, oc) :: cs)
        = practiceLoop (practiceCase st ord oc).1 cs := by
      simp only [practiceLoop]
      rw [← Prod.mk.eta (p := practiceCase st ord oc), hb]
      simp
    rw [hl]
    refine ⟨?_, ?_, ?_, ?_, ?_⟩
    · rw [i1, hr]; simp
    · rw [i2, hv]
    · rw [i3, hco]
    · rw [i4, hp]
      simp only [List.filter_cons]
      by_cases ha : isAccOc oc
      · simp [ha]
        omega
      · simp [ha]
    · rw [i5, hap]
      simp [Bool.and_assoc]


theorem ocRow_status (ord : Nat) (oc : Outcome) :
    (ocRow ord oc).status = rowStatusOc oc := by
  cases oc <;> rfl

theorem ocRow_fail (ord : Nat) (oc : Outcome) (h : recognizedOc oc = true) :
    (decide ((ocRow ord oc).status ≠ TCStatus.ACCEPTED)) = failingOc oc := by
  cases oc with
  | none => simp [ocRow, failingOc]
  | some p =>
    cases hv : p.verdict <;>
      simp_all [ocRow, rowStatusOc, recognizedOc, isAccOc, failingOc]

theorem enumFrom_snd_all (l : List Outcome) (p : Outcome → Bool) (n : Nat) :
    (List.enumFrom n l).all (fun c => p c.2) = l.all p := by
  induction l generalizing n with
  | nil => rfl
  | cons x xs ih => simp [List.enumFrom, ih]

theorem enumFrom_snd_filter_length (l : List Outcome) (p : Outcome → Bool)
    (n : Nat) :
    ((List.enumFrom n l).filter (fun c => p c.2)).length
      = (l.filter p).length := by
  induction l generalizing n with
  | nil => rfl
  | cons x xs ih =>
    simp only [List.enumFrom, List.filter_cons]
    by_cases hx : p x <;> simp [hx, ih]

theorem enumFrom_snd_find (l : List Outcome) (p : Outcome → Bool)
    (n : Nat) :
    ((List.enumFrom n l).find? (fun c => p c.2)).map Prod.snd
      = l.find? p := by
  induction l generalizing n with
  | nil => rfl
  | cons x xs ih =>
    simp only [List.enumFrom, List.find?_cons]
    by_cases hx : p x <;> simp [hx, ih]

theorem enumFrom_snd_forall (l : List Outcome) (p : Outcome → Bool) (n : Nat)
    (h : ∀ oc ∈ l, p oc = true) :
    ∀ c ∈ List.enumFrom n l, p c.2 = true := by
  induction l generalizing n with
  | nil => intro c hc; cases hc
  | cons x xs ih =>
    intro c hc
    rcases hc with _ | hc
    · exact h x (List.mem_cons_self ..)
    · exact ih (n + 1) (fun oc hoc => h oc (List.mem_cons_of_mem _ hoc)) _
        (by assumption)

theorem enumFrom_snd_map (l : List Outcome) (g : Outcome → TCStatus) (n : Nat) :
    (List.enumFrom n l).map (fun c => g c.2) = l.map g := by
  induction l generalizing n with
  | nil => rfl
  | cons x xs ih => simp [List.enumFrom, ih]

theorem verdict_of_failing (oc : Outcome) (d : Verdict)
    (h : failingOc oc = true) :
    (match rowStatusOc oc with
     | TCStatus.WRONG_ANSWER => Verdict.WRONG_ANSWER
     | TCStatus.TIME_LIMIT_EXCEEDED => Verdict.TIME_LIMIT_EXCEEDED
     | TCStatus.RUNTIME_ERROR => Verdict.RUNTIME_ERROR
     | _ => d) = failVerdict oc := by
  cases oc with
  | none => rfl
  | some p => cases hv : p.verdict <;> simp_all [rowStatusOc, failingOc, failVerdict]


theorem contest_time_ok (m : Int) (t : TimeVal) (h : numSafeT t = true) :
    ∃ v, contest_max_time_step m t = .ok v := by
  cases t with
  | absent => exact ⟨m, rfl⟩
  | num micro =>
    simp only [contest_max_time_step]
    split <;> exact ⟨_, rfl⟩
  | str s f r => simp [numSafeT] at h

theorem contest_mem_ok (m : Int) (t : MemVal) (h : numSafeM t = true) :
    ∃ v, contest_max_memory_step m t = .ok v := by
  cases t with
  | absent => exact ⟨m, rfl⟩
  | num kb =>
    simp only [contest_max_memory_step]
    split <;> exact ⟨_, rfl⟩
  | str s f => simp [numSafeM] at h

theorem contestLoop_spec (ocs : List Outcome) (st : ContestState)
    (h : ∀ oc ∈ ocs, tameOc oc = true) :
    ∃ st', contestLoop st ocs = .ok st' ∧
      st'.verdict = lastSetVerdict ocs st.verdict ∧
      st'.test_cases_passed
        = st.test_cases_passed + (ocs.filter isAccOc).length ∧
      st'.all_passed
        = (st.all_passed && ocs.all (fun oc => !(failingOc oc))) := by
  induction ocs generalizing st with
  | nil => exact ⟨st, rfl, by simp [lastSetVerdict], by simp, by simp⟩
  | cons oc ocs ih =>
    have hoc := h _ (List.mem_cons_self ..)
    have hocs : ∀ x ∈ ocs, tameOc x = true :=
      fun x hx => h x (List.mem_cons_of_mem _ hx)
    cases oc with
    | none =>
      obtain ⟨st', h1, h2, h3, h4⟩ := ih { st with all_passed := false } hocs
      refine ⟨st', ?_, ?_, ?_, ?_⟩
      · simpa [contestLoop, contestCase] using h1
      · simpa [lastSetVerdict, contestFailV] using h2
      · simpa [isAccOc] using h3
      · simp_all [failingOc]
    | some p =>
      cases hv : p.verdict with
      | ACCEPTED =>
        have hf : failingOc (some p) = false := by
          simp only [failingOc, hv]; decide
        have ha : isAccOc (some p) = true := by
          simp only [isAccOc, hv]; decide
        have hcf : contestFailV (some p) = none := by
          simp only [contestFailV, hv]
        have ht : numSafeT p.execution_time = true := by
          simp_all [tameOc]
        have hm : numSafeM p.memory_used = true := by
          simp_all [tameOc]
        obtain ⟨mt, hmt⟩ := contest_time_ok st.max_time p.execution_time ht
        obtain ⟨mm, hmm⟩ := contest_mem_ok st.max_memory p.memory_used hm
        obtain ⟨st', h1, h2, h3, h4⟩ := ih
          { st with test_cases_passed := st.test_cases_passed + 1,
                    max_time := mt, max_memory := mm } hocs
        refine ⟨st', ?_, ?_, ?_, ?_⟩
        · simpa [contestLoop, contestCase, hv, hmt, hmm] using h1
        · rw [h2]; simp [lastSetVerdict, List.foldl_cons, hcf]
        · rw [h3]; simp [List.filter_cons, ha]; omega
        · rw [h4]; simp [List.all_cons, hf, Bool.and_assoc]
      | WRONG_ANSWER =>
        have hf : failingOc (some p) = true := by
          simp only [failingOc, hv]; decide
        have ha : isAccOc (some p) = false := by
          simp only [isAccOc, hv]; decide
        have hcf : contestFailV (some p) = some .WRONG_ANSWER := by
          simp only [contestFailV, hv]
        obtain ⟨st', h1, h2, h3, h4⟩ := ih
          { st with all_passed := false, verdict := .WRONG_ANSWER,
                    error_message := stderrOrMessage p.stderr p.message } hocs
        refine ⟨st', ?_, ?_, ?_, ?_⟩
        · simpa [contestLoop, contestCase, hv] using h1
        · rw [h2]; simp [lastSetVerdict, List.foldl_cons, hcf]
        · rw [h3]; simp [List.filter_cons, ha]
        · rw [h4]; simp [List.all_cons, hf]
      | TIME_LIMIT_EXCEEDED =>
        have hf : failingOc (some p) = true := by
          simp only [failingOc, hv]; decide
        have ha : isAccOc (some p) = false := by
          simp only [isAccOc, hv]; decide
        have hcf : contestFailV (some p) = some .TIME_LIMIT_EXCEEDED := by
          simp only [contestFailV, hv]
        obtain ⟨st', h1, h2, h3, h4⟩ := ih
          { st with all_passed := false, verdict := .TIME_LIMIT_EXCEEDED,
                    error_message := stderrOrMessage p.stderr p.message } hocs
        refine ⟨st', ?_, ?_, ?_, ?_⟩
        · simpa [contestLoop, contestCase, hv] using h1
        · rw [h2]; simp [lastSetVerdict, List.foldl_cons, hcf]
        · rw [h3]; simp [List.filter_cons, ha]
        · rw [h4]; simp [List.all_cons, hf]
      | RUNTIME_ERROR =>
        have hf : failingOc (some p) = true := by
          simp only [failingOc, hv]; decide
        have ha : isAccOc (some p) = false := by
          simp only [isAccOc, hv]; decide
        have hcf : contestFailV (some p) = some .RUNTIME_ERROR := by
          simp only [contestFailV, hv]
        obtain ⟨st', h1, h2, h3, h4⟩ := ih
          { st with all_passed := false, verdict := .RUNTIME_ERROR,
                    error_message := stderrOrMessage p.stderr p.message } hocs
        refine ⟨st', ?_, ?_, ?_, ?_⟩
        · simpa [contestLoop, contestCase, hv] using h1
        · rw [h2]; simp [lastSetVerdict, List.foldl_cons, hcf]
        · rw [h3]; simp [List.filter_cons, ha]
        · rw [h4]; simp [List.all_cons, hf]
      | PENDING => simp_all [tameOc]
      | RUNNING => simp_all [tameOc]
      | COMPILATION_ERROR => simp_all [tameOc]
      | INTERNAL_ERROR => simp_all [tameOc]


theorem lastSetVerdict_getLast (ocs : List Outcome) (d : Verdict) :
    lastSetVerdict ocs d = ((ocs.filterMap contestFailV).getLast?).getD d := by
  induction ocs generalizing d with
  | nil => rfl
  | cons oc ocs ih =>
    simp only [lastSetVerdict, List.foldl_cons, List.filterMap_cons]
    cases hc : contestFailV oc with
    | none =>
      have := ih d
      simp only [lastSetVerdict] at this
      rw [this]
    | some v =>
      have := ih v
      simp only [lastSetVerdict] at this
      rw [this, List.getLast?_cons]
      cases (ocs.filterMap contestFailV).getLast? <;> simp

theorem contestFailV_props (oc : Outcome) (v : Verdict)
    (h : contestFailV oc = some v) :
    v ≠ .ACCEPTED ∧ v ≠ .COMPILATION_ERROR := by
  cases oc with
  | none => cases h
  | some p => cases hv : p.verdict <;> simp_all [contestFailV] <;> simp [← h]

theorem lastSetVerdict_props (ocs : List Outcome) (d : Verdict)
    (hd : d ≠ .ACCEPTED ∧ d ≠ .COMPILATION_ERROR) :
    lastSetVerdict ocs d ≠ .ACCEPTED ∧
      lastSetVerdict ocs d ≠ .COMPILATION_ERROR := by
  induction ocs generalizing d with
  | nil => exact hd
  | cons oc ocs ih =>
    simp only [lastSetVerdict, List.foldl_cons]
    cases hc : contestFailV oc with
    | none => exact ih d hd
    | some v => exact ih v (contestFailV_props oc v hc)

theorem contestFailV_failing (oc : Outcome) (v : Verdict)
    (h : contestFailV oc = some v) : failingOc oc = true := by
  cases oc with
  | none => cases h
  | some p => cases hv : p.verdict <;> simp_all [contestFailV, failingOc]

theorem all_not_failing_of_filterMap (ocs : List Outcome)
    (h : ocs.filterMap contestFailV ≠ []) :
    ocs.all (fun oc => !(failingOc oc)) = false := by
  induction ocs with
  | nil => exact absurd rfl h
  | cons oc ocs ih =>
    cases hc : contestFailV oc with
    | none =>
      have hf : ocs.filterMap contestFailV ≠ [] := by
        simpa [List.filterMap_cons, hc] using h
      simp [List.all_cons, ih hf]
    | some v =>
      simp [List.all_cons, contestFailV_failing oc v hc]

theorem contestFinalize_verdict (st : ContestState) (total : Nat)
    (points : Int) (ps : PStatusRow) (part : ParticipantRow)
    (now start_time : Int) :
    (contestFinalize st total points ps part now start_time).1.verdict
      = if st.verdict ≠ .COMPILATION_ERROR then
          (if st.all_passed then Verdict.ACCEPTED
           else (if st.verdict.truthy then st.verdict
                 else Verdict.WRONG_ANSWER))
        else st.verdict := by
  unfold contestFinalize
  split_ifs <;> rfl


theorem rows_find_fail (cs : List (Nat × Outcome))
    (h : ∀ c ∈ cs, recognizedOc c.2 = true) :
    ((cs.map (fun c => ocRow c.1 c.2)).find?
        (fun r => decide (r.status ≠ TCStatus.ACCEPTED)))
      = (cs.find? (fun c => failingOc c.2)).map (fun c => ocRow c.1 c.2) := by
  induction cs with
  | nil => rfl
  | cons c cs ih =>
    have hc := h _ (List.mem_cons_self ..)
    have hcs : ∀ x ∈ cs, recognizedOc x.2 = true :=
      fun x hx => h x (List.mem_cons_of_mem _ hx)
    simp only [List.map_cons, List.find?_cons]
    rw [ocRow_fail c.1 c.2 hc]
    cases hf : failingOc c.2 with
    | true => simp
    | false => simpa using ih hcs

theorem not_failing_iff_acc (oc : Outcome) (h : recognizedOc oc = true) :
    failingOc oc = false ↔ isAccOc oc = true := by
  cases oc with
  | none => simp [failingOc, isAccOc]
  | some p =>
    cases hv : p.verdict <;>
      simp_all [recognizedOc, isAccOc, failingOc]

theorem acc_not_failing (oc : Outcome) (h : isAccOc oc = true) :
    failingOc oc = false := by
  cases oc with
  | none => cases h
  | some p => cases hv : p.verdict <;> simp_all [isAccOc, failingOc]

theorem all_not_failing_eq_all_acc (l : List Outcome)
    (h : ∀ oc ∈ l, recognizedOc oc = true) :
    l.all (fun oc => !(failingOc oc)) = l.all isAccOc := by
  induction l with
  | nil => rfl
  | cons oc l ih =>
    have hoc := h _ (List.mem_cons_self ..)
    have hl : ∀ x ∈ l, recognizedOc x = true :=
      fun x hx => h x (List.mem_cons_of_mem _ hx)
    have hiff := not_failing_iff_acc oc hoc
    simp only [List.all_cons, ih hl]
    cases hf : failingOc oc with
    | false => simp [hiff.mp hf]
    | true =>
      have : isAccOc oc = false := by
        cases ha : isAccOc oc
        · rfl
        · rw [acc_not_failing oc ha] at hf; cases hf
      simp [this]

theorem tame_recognized (oc : Outcome) (h : tameOc oc = true) :
    recognizedOc oc = true := by
  cases oc with
  | none => rfl
  | some p =>
    cases hv : p.verdict <;>
      simp_all [tameOc, recognizedOc, isAccOc, failingOc]


/-- C2 (amended): for recognized per-case outcomes, the practice engine
takes the final verdict from the first non-accepted test case in order,
while the contest engine takes it from the last test case that wrote a
recognized failing verdict (each failing case overwrites the previous
one). -/
theorem claim_verdict_precedence
    (outcomes : List Outcome)
    (hrec : ∀ oc ∈ outcomes, recognizedOc oc = true)
    (ocs2 : List Outcome)
    (htame : ∀ oc ∈ ocs2, tameOc oc = true)
    (points : Int) (ps : PStatusRow) (part : ParticipantRow)
    (now start_time : Int) :
    (∀ f, (outcomes.filter failingOc).head? = some f →
        (judgePractice outcomes).1.verdict = failVerdict f) ∧
    (∀ v, (ocs2.filterMap contestFailV).getLast? = some v →
        contestVerdictOf
          (judgeContest ocs2 points ps part now start_time) = some v) := by
  constructor
  · intro f hf
    rw [List.filter_head?] at hf
    have hcs : ∀ c ∈ outcomes.enum, recognizedOc c.2 = true :=
      enumFrom_snd_forall outcomes recognizedOc 0 hrec
    obtain ⟨s1, s2, s3, s4, s5⟩ :=
      practiceLoop_spec outcomes.enum practiceInit hcs
    have hff : failingOc f = true := List.find?_some hf
    have hap : (practiceLoop practiceInit outcomes.enum).all_passed = false := by
      rw [s5]
      have h1 : outcomes.all (fun oc => !(failingOc oc)) = false := by
        cases hall : outcomes.all (fun oc => !(failingOc oc)) with
        | false => rfl
        | true =>
          have h2 := (List.all_eq_true.mp hall) f (List.mem_of_find?_eq_some hf)
          rw [hff] at h2
          cases h2
      have h0 : (List.enumFrom 0 outcomes).all (fun c => !(failingOc c.2))
          = outcomes.all (fun oc => !(failingOc oc)) :=
        enumFrom_snd_all outcomes (fun oc => !(failingOc oc)) 0
      simp only [List.enum, h0, h1, Bool.and_false]
    have hfind : ((outcomes.enum.map (fun c => ocRow c.1 c.2)).find?
        (fun r => decide (r.status ≠ TCStatus.ACCEPTED)))
          = (outcomes.enum.find? (fun c => failingOc c.2)).map
              (fun c => ocRow c.1 c.2) :=
      rows_find_fail outcomes.enum hcs
    have hsnd : ((outcomes.enum.find? (fun c => failingOc c.2)).map
        Prod.snd) = some f := by
      have := enumFrom_snd_find outcomes failingOc 0
      simp only [List.enum]
      rw [this, hf]
    obtain ⟨c0, hc0, hc0f⟩ := Option.map_eq_some'.mp hsnd
    have s2' : (practiceLoop practiceInit outcomes.enum).verdict
        = Verdict.RUNNING := by rw [s2]; rfl
    have s1' : (practiceLoop practiceInit outcomes.enum).rows
        = outcomes.enum.map (fun c => ocRow c.1 c.2) := by
      rw [s1]; simp [practiceInit]
    simp only [judgePractice, practiceFinal]
    rw [s2', hap, s1']
    rw [if_pos (by decide : ¬ (Verdict.RUNNING = Verdict.COMPILATION_ERROR))]
    rw [if_neg (by simp)]
    simp only [List.filter_head?]
    rw [hfind, hc0]
    simp only [Option.map_some']
    rw [hc0f]
    cases f with
    | none => simp [ocRow, failVerdict]
    | some p =>
      cases hvp : p.verdict <;>
        simp_all [ocRow, rowStatusOc, failVerdict, failingOc]
  · intro v hv
    obtain ⟨st', hLoop, hVerd, hPass, hAp⟩ :=
      contestLoop_spec ocs2 contestInit htame
    have hne : ocs2.filterMap contestFailV ≠ [] := by
      intro h0
      rw [h0] at hv
      cases hv
    have hapf : st'.all_passed = false := by
      rw [hAp, all_not_failing_of_filterMap ocs2 hne, Bool.and_false]
    have hv' : st'.verdict = v := by
      rw [hVerd, lastSetVerdict_getLast, hv]
      rfl
    have hprops := lastSetVerdict_props ocs2 contestInit.verdict
      (by constructor <;> simp [contestInit])
    have hne_ce : st'.verdict ≠ .COMPILATION_ERROR := by
      rw [hVerd]
      exact hprops.2
    simp only [judgeContest]
    rw [hLoop]
    simp only [contestVerdictOf]
    rw [contestFinalize_verdict, if_pos hne_ce, hapf]
    simp only [Bool.false_eq_true, if_false, reduceIte]
    rw [Verdict.truthy_eq_true]
    simp only [if_true, reduceIte]
    rw [hv']


/-- C6 (amended): for recognized outcomes, a practice submission is
ACCEPTED iff every case passed and at least one case was executed; a
contest submission is ACCEPTED iff every executed case passed, vacuously
including the zero-test-case submission. -/
theorem claim_accepted_iff
    (outcomes : List Outcome)
    (hrec : ∀ oc ∈ outcomes, recognizedOc oc = true)
    (ocs2 : List Outcome)
    (htame : ∀ oc ∈ ocs2, tameOc oc = true)
    (points : Int) (ps : PStatusRow) (part : ParticipantRow)
    (now start_time : Int) :
    ((judgePractice outcomes).1.verdict = Verdict.ACCEPTED ↔
      ((∀ oc ∈ outcomes, isAccOc oc = true) ∧ outcomes ≠ [])) ∧
    (contestVerdictOf (judgeContest ocs2 points ps part now start_time)
        = some Verdict.ACCEPTED ↔ (∀ oc ∈ ocs2, isAccOc oc = true)) := by
  constructor
  · have hcs : ∀ c ∈ outcomes.enum, recognizedOc c.2 = true :=
      enumFrom_snd_forall outcomes recognizedOc 0 hrec
    obtain ⟨s1, s2, s3, s4, s5⟩ :=
      practiceLoop_spec outcomes.enum practiceInit hcs
    have s2' : (practiceLoop practiceInit outcomes.enum).verdict
        = Verdict.RUNNING := by rw [s2]; rfl
    have s1' : (practiceLoop practiceInit outcomes.enum).rows
        = outcomes.enum.map (fun c => ocRow c.1 c.2) := by
      rw [s1]; simp [practiceInit]
    have s5' : (practiceLoop practiceInit outcomes.enum).all_passed
        = outcomes.all isAccOc := by
      rw [s5]
      have h0 := enumFrom_snd_all outcomes (fun oc => !(failingOc oc)) 0
      simp only [List.enum]
      rw [h0, all_not_failing_eq_all_acc outcomes hrec]
      simp [practiceInit]
    have s4' : (practiceLoop practiceInit outcomes.enum).test_cases_passed
        = (outcomes.filter isAccOc).length := by
      rw [s4]
      have h0 := enumFrom_snd_filter_length outcomes isAccOc 0
      simp only [List.enum]
      rw [h0]
      simp [practiceInit]
    constructor
    · intro hacc
      by_cases hAL : outcomes.all isAccOc = true
      · refine ⟨fun oc hoc => (List.all_eq_true.mp hAL) oc hoc, ?_⟩
        intro hnil
        rw [hnil] at hacc
        exact absurd hacc (by decide)
      · exfalso
        have hap : (practiceLoop practiceInit outcomes.enum).all_passed
            = false := by
          rw [s5']
          exact Bool.eq_false_iff.mpr hAL
        simp only [judgePractice, practiceFinal] at hacc
        rw [s2', hap, s1'] at hacc
        rw [if_pos (by decide :
          ¬ (Verdict.RUNNING = Verdict.COMPILATION_ERROR))] at hacc
        rw [if_neg (by simp)] at hacc
        simp only [List.filter_head?] at hacc
        cases hfd : (outcomes.enum.map (fun c => ocRow c.1 c.2)).find?
            (fun r => decide (r.status ≠ TCStatus.ACCEPTED)) with
        | none => rw [hfd] at hacc; cases hacc
        | some r =>
          rw [hfd] at hacc
          cases hst : r.status <;> simp [hst] at hacc
    · rintro ⟨hall, hne⟩
      have hAL : outcomes.all isAccOc = true :=
        List.all_eq_true.mpr hall
      have hlen : (outcomes.filter isAccOc).length > 0 := by
        rw [List.filter_eq_self.mpr hall]
        exact List.length_pos.mpr hne
      simp only [judgePractice, practiceFinal]
      rw [s2', s5', s4']
      rw [if_pos (by decide :
        ¬ (Verdict.RUNNING = Verdict.COMPILATION_ERROR))]
      rw [if_pos ⟨hAL, hlen⟩]
  · obtain ⟨st', hLoop, hVerd, hPass, hAp⟩ :=
      contestLoop_spec ocs2 contestInit htame
    have hrec2 : ∀ oc ∈ ocs2, recognizedOc oc = true :=
      fun oc hoc => tame_recognized oc (htame oc hoc)
    have hAp' : st'.all_passed = ocs2.all isAccOc := by
      rw [hAp, all_not_failing_eq_all_acc ocs2 hrec2]
      simp [contestInit]
    have hprops := lastSetVerdict_props ocs2 contestInit.verdict
      (by constructor <;> simp [contestInit])
    have hne_acc : st'.verdict ≠ Verdict.ACCEPTED := by
      rw [hVerd]; exact hprops.1
    have hne_ce : st'.verdict ≠ Verdict.COMPILATION_ERROR := by
      rw [hVerd]; exact hprops.2
    constructor
    · intro hacc
      simp only [judgeContest] at hacc
      rw [hLoop] at hacc
      simp only [contestVerdictOf] at hacc
      rw [contestFinalize_verdict, if_pos hne_ce] at hacc
      by_cases hap : st'.all_passed = true
      · rw [hAp'] at hap
        exact fun oc hoc => (List.all_eq_true.mp hap) oc hoc
      · exfalso
        rw [Bool.eq_false_iff.mpr hap] at hacc
        simp only [Bool.false_eq_true, if_false] at hacc
        rw [Verdict.truthy_eq_true] at hacc
        simp only [if_true] at hacc
        exact hne_acc (by injection hacc)
    · intro hall
      have hap : st'.all_passed = true := by
        rw [hAp']
        exact List.all_eq_true.mpr hall
      simp only [judgeContest]
      rw [hLoop]
      simp only [contestVerdictOf]
      rw [contestFinalize_verdict, if_pos hne_ce, hap]
      simp


/-- C5 (amended): in the practice engine a transport failure records that
case as RUNTIME_ERROR ("Failed to execute code") and judging continues, and
on [ACCEPTED, failure, ACCEPTED] the verdict is RUNTIME_ERROR with
test_cases_passed = 2; the contest engine also continues and counts
passed = 2, but records no per-case result and leaves the verdict
RUNNING. -/
theorem claim_sandbox_failure_degrades
    (pfx sfx : List Outcome)
    (h1 : ∀ oc ∈ pfx, recognizedOc oc = true)
    (h2 : ∀ oc ∈ sfx, recognizedOc oc = true) :
    ((judgePractice (pfx ++ none :: sfx)).2.map (·.status)
        = pfx.map rowStatusOc
            ++ TCStatus.RUNTIME_ERROR :: sfx.map rowStatusOc) ∧
    ((judgePractice [some acceptedParsed, none, some acceptedParsed]).1.verdict
        = Verdict.RUNTIME_ERROR) ∧
    ((judgePractice
        [some acceptedParsed, none, some acceptedParsed]).1.test_cases_passed
        = 2) ∧
    ((judgePractice [some acceptedParsed, none, some acceptedParsed]).2.map
        (fun r => (r.status, r.error_message))
        = [(TCStatus.ACCEPTED, ""),
           (TCStatus.RUNTIME_ERROR, "Failed to execute code"),
           (TCStatus.ACCEPTED, "")]) ∧
    (contestCountersOf
        (judgeContest [some acceptedParsed, none, some acceptedParsed]
          100 freshStatusRow freshParticipantRow 500 0)
        = some (Verdict.RUNNING, 2)) := by
  refine ⟨?_, by decide, by decide, by decide, by decide⟩
  have hall : ∀ oc ∈ pfx ++ none :: sfx, recognizedOc oc = true := by
    intro oc hoc
    rcases List.mem_append.mp hoc with h | h
    · exact h1 oc h
    · rcases List.mem_cons.mp h with h | h
      · rw [h]; rfl
      · exact h2 oc h
  have hcs : ∀ c ∈ (pfx ++ none :: sfx).enum, recognizedOc c.2 = true :=
    enumFrom_snd_forall _ recognizedOc 0 hall
  obtain ⟨s1, s2, s3, s4, s5⟩ :=
    practiceLoop_spec (pfx ++ none :: sfx).enum practiceInit hcs
  have s1' : (practiceLoop practiceInit (pfx ++ none :: sfx).enum).rows
      = (pfx ++ none :: sfx).enum.map (fun c => ocRow c.1 c.2) := by
    rw [s1]; simp [practiceInit]
  simp only [judgePractice]
  rw [s1', List.map_map]
  have hfn : ((fun r : TCResultRow => r.status) ∘ fun c : Nat × Outcome =>
      ocRow c.1 c.2) = fun c : Nat × Outcome => rowStatusOc c.2 := by
    funext c
    exact ocRow_status c.1 c.2
  rw [hfn]
  have h0 := enumFrom_snd_map (pfx ++ none :: sfx) rowStatusOc 0
  simp only [List.enum]
  rw [h0, List.map_append, List.map_cons]
  rfl

/-- C4: the claim says every judged submission ends with a terminal
verdict, never PENDING or RUNNING.  The code violates it in both engines: a
practice submission whose single case comes back with sandbox status 13
(INTERNAL_ERROR) leaves its row PENDING and the verdict RUNNING, and a
contest submission whose single case is a transport failure ends RUNNING
because `submission.verdict or WRONG_ANSWER` keeps the truthy string
"RUNNING". -/
theorem claim_terminal_verdict_bug :
    (judgePractice [some internalErrorParsed]).1.verdict = Verdict.RUNNING ∧
    ((judgePractice [some internalErrorParsed]).2.map (·.status)
        = [TCStatus.PENDING]) ∧
    contestVerdictOf
        (judgeContest [none] 100 freshStatusRow freshParticipantRow 500 0)
      = some Verdict.RUNNING := by
  decide

/-- C7: the claim says both engines tolerate absent/string/float
time and memory values, degrading to 0 and never raising.  The practice
coercions do (guarded by try/except); the contest engine has no guard:
`int(parsed["execution_time"] * 1000)` on the string "0.095" raises
ValueError (string repetition), `max(max_memory, "5120")` raises TypeError,
and the judging pass aborts on an accepted case carrying a string time. -/
theorem claim_numeric_coercion_bug :
    coerce_execution_time_ms (TimeVal.str "abc" none none) = 0 ∧
    coerce_memory_kb (MemVal.str "abc" none) = 0 ∧
    coerce_execution_time_ms (TimeVal.str "0.095" (some 95000) none) = 95 ∧
    contest_max_time_step 0 (TimeVal.str "0.095" (some 95000) none)
      = Except.error "ValueError" ∧
    contest_max_memory_step 0 (MemVal.str "5120" (some 5120))
      = Except.error "TypeError" ∧
    contestVerdictOf
        (judgeContest [some acceptedStrTimeParsed] 100 freshStatusRow
          freshParticipantRow 500 0) = none := by
  refine ⟨by decide, by decide, by decide, rfl, rfl, by decide⟩

/-- C2 counterexample: for a contest submission whose cases come back
[WRONG_ANSWER, TIME_LIMIT_EXCEEDED], the stored verdict is
TIME_LIMIT_EXCEEDED — the last failing case wins, not the first — while the
practice engine on the same outcomes yields WRONG_ANSWER. -/
theorem counter_contest_last_failure :
    contestVerdictOf
        (judgeContest [some wrongAnswerParsed, some tleParsed] 100
          freshStatusRow freshParticipantRow 500 0)
      = some Verdict.TIME_LIMIT_EXCEEDED ∧
    (judgePractice [some wrongAnswerParsed, some tleParsed]).1.verdict
      = Verdict.WRONG_ANSWER ∧
    Verdict.TIME_LIMIT_EXCEEDED ≠ Verdict.WRONG_ANSWER := by
  decide

/-- C5 counterexample: in the contest engine, cases [ACCEPTED,
transport failure, ACCEPTED] end with verdict RUNNING, not the
RUNTIME_ERROR the claim requires. -/
theorem counter_contest_transport :
    contestVerdictOf
        (judgeContest [some acceptedParsed, none, some acceptedParsed] 100
          freshStatusRow freshParticipantRow 500 0)
      = some Verdict.RUNNING ∧
    Verdict.RUNNING ≠ Verdict.RUNTIME_ERROR := by
  decide

/-- C6 counterexample: a contest submission judged against zero test
cases is marked ACCEPTED (and even scores the problem), contradicting the
claim that at least one executed case is required. -/
theorem counter_contest_zero_cases :
    contestCountersOf
        (judgeContest [] 100 freshStatusRow freshParticipantRow 500 0)
      = some (Verdict.ACCEPTED, 0) ∧
    contestScoringOf
        (judgeContest [] 100 freshStatusRow freshParticipantRow 500 0)
      = some (1, 100, SolveState.SOLVED, 100, some 500) := by
  decide


/-- C1: the claim says the contest scoring side effects (SOLVED transition,
first_solved_at/solve_time stamp, score, problems_solved, total_score) run
only when the problem was not previously SOLVED.  The code has no such
guard: re-judging an accepted solution of an already-SOLVED problem runs
all of them again.  Here user 7 already solved problem 5 (100 points,
3 attempts, first_solved_at = 40); one more accepted submission at t = 600
leaves problems_solved = 2 and total_score = 200 for a one-problem contest,
re-stamps first_solved_at to 600, and never sets solve_time. -/
theorem claim_contest_rescore_bug :
    (completedWorld (submit_contest_solution solvedWorld fixtureContest 600
        fixtureReq [some acceptedParsed])).map
      (fun w => w.participants.map fun q =>
        (q.2.problems_solved, q.2.total_score, q.2.rank))
      = some [(2, 200, some 1)] ∧
    (completedWorld (submit_contest_solution solvedWorld fixtureContest 600
        fixtureReq [some acceptedParsed])).map
      (fun w => w.statuses.map fun q =>
        (q.2.2.2.status, q.2.2.2.score, q.2.2.2.attempts))
      = some [(SolveState.SOLVED, 100, 4)] ∧
    (completedWorld (submit_contest_solution solvedWorld fixtureContest 600
        fixtureReq [some acceptedParsed])).map
      (fun w => w.statuses.map fun q =>
        (q.2.2.2.first_solved_at, q.2.2.2.solve_time))
      = some [(some 600, none)] := by
  refine ⟨by decide, by decide, by decide⟩

/-- C10: the claim says wrong_attempts counts non-accepted submissions
prior to the first acceptance.  The code never writes wrong_attempts
anywhere: after user 7 submits one WRONG_ANSWER and then one ACCEPTED
solution to problem 5, the solve status shows attempts = 2 but
wrong_attempts = 0 instead of 1. -/
theorem claim_wrong_attempts_bug :
    (completedWorld (submit_contest_solution afterWrongWorld fixtureContest 200
        fixtureReq [some acceptedParsed])).map
      (fun w => w.statuses.map fun q =>
        (q.2.2.2.attempts, q.2.2.2.wrong_attempts, q.2.2.2.status))
      = some [(2, 0, SolveState.SOLVED)] ∧
    (completedWorld (submit_contest_solution afterWrongWorld fixtureContest 200
        fixtureReq [some acceptedParsed])).map
      (fun w => w.submissions.map fun q => q.2.2.2.verdict)
      = some [Verdict.WRONG_ANSWER, Verdict.ACCEPTED] := by
  constructor <;> decide

/-- C8: a ranking pass sorts participants by total_score descending then
total_time ascending and assigns ranks 1..N in that order (shown in
general: the assigned ranks are exactly 1..N, the output is sorted by the
comparator, and it is a permutation of the input rows); concretely
A(300,40), B(300,20), C(200,10) rank as B=1, A=2, C=3. -/
theorem claim_rank_ordering :
    (∀ ps : List ParticipantRow,
      (update_rankings ps).map (·.rank)
          = (List.range ps.length).map (fun i => some ((i : Int) + 1)) ∧
      List.Pairwise rank_rel (update_rankings ps) ∧
      ((update_rankings ps).map stripRank).Perm (ps.map stripRank)) ∧
    (update_rankings [partA, partB, partC]).map (fun p => (p.userId, p.rank))
        = [(2, some 1), (1, some 2), (3, some 3)] :=
  ⟨fun ps => ⟨update_rankings_ranks ps, update_rankings_sorted ps,
    update_rankings_perm ps⟩, by decide⟩

/-- C9: a contest submission made while the contest is not ACTIVE, or
without a registration, or naming a problem that is not an active problem
of that contest, is rejected with the world unchanged — no submission row,
participant, solve status or ranking is touched. -/
theorem claim_contest_preconditions (w : World) (c : ContestRec) (now : Int)
    (req : SubmitReq) (outcomes : List Outcome)
    (h : contestIsRunning c now = false ∨
         w.registrations.contains (req.userId, c.id) = false ∨
         findProblem w c req.problem_id = none) :
    ∃ r, submit_contest_solution w c now req outcomes = .rejected r w := by
  by_cases h1 : c.is_active = true
  case neg =>
    refine ⟨.contestNotFound, ?_⟩
    simp [submit_contest_solution, h1]
  by_cases h2 : contestIsRunning c now = true
  case neg =>
    refine ⟨.contestNotActive, ?_⟩
    simp [submit_contest_solution, h1, h2]
  by_cases h3 : w.registrations.contains (req.userId, c.id) = true
  case neg =>
    refine ⟨.notRegistered, ?_⟩
    have h3m : ¬ ((req.userId, c.id) ∈ w.registrations) := by
      simpa using h3
    simp only [submit_contest_solution, h1, h2]
    simp [h3m]
  by_cases h4 : serializerValid req = true
  case neg =>
    refine ⟨.invalidPayload, ?_⟩
    have h3m : (req.userId, c.id) ∈ w.registrations := by
      simpa using h3
    simp [submit_contest_solution, h1, h2, h3m, h4]
  rcases h with h | h | h
  · rw [h2] at h; cases h
  · rw [h3] at h; cases h
  · refine ⟨.problemNotFound, ?_⟩
    have h3m : (req.userId, c.id) ∈ w.registrations := by
      simpa using h3
    simp [submit_contest_solution, h1, h2, h3m, h4, h]

/-- C9 witness: submitting at t = 5000 to a contest that ended at
t = 3600 is rejected and leaves the fixture world untouched. -/
theorem claim_contest_preconditions_witness :
    ∃ r, submit_contest_solution fixtureWorld fixtureContest 5000 fixtureReq []
      = .rejected r fixtureWorld :=
  claim_contest_preconditions fixtureWorld fixtureContest 5000 fixtureReq []
    (Or.inl (by decide))


/-- C3: two accepted practice submissions to the same problem bump the
user total_solved, the matching per-difficulty counter and the problem
total_solved exactly once, stamp first_solved_at on the first acceptance,
and the second acceptance repeats none of these increments. -/
theorem claim_first_solve_idempotent
    (user : UserRow) (problem : ProblemRow) (row0 : Option SolveStatusRow)
    (sub1 sub2 : SubmissionRow) (now1 now2 : Int)
    (hrow : ∀ r, row0 = some r → r.status ≠ SolveState.SOLVED)
    (hs1 : sub1.verdict = Verdict.ACCEPTED)
    (hs2 : sub2.verdict = Verdict.ACCEPTED) :
    (practice_post_judging user problem row0 sub1 now1).1.total_solved
        = user.total_solved + 1 ∧
    (practice_post_judging user problem row0 sub1 now1).2.1.total_solved
        = problem.total_solved + 1 ∧
    (practice_post_judging user problem row0 sub1 now1).2.2.status
        = SolveState.SOLVED ∧
    (practice_post_judging user problem row0 sub1 now1).2.2.first_solved_at
        = some now1 ∧
    diffCount (practice_post_judging user problem row0 sub1 now1).1
        problem.difficulty
      = diffCount user problem.difficulty + 1 ∧
    (practice_post_judging
        (practice_post_judging user problem row0 sub1 now1).1
        (practice_post_judging user problem row0 sub1 now1).2.1
        (some (practice_post_judging user problem row0 sub1 now1).2.2)
        sub2 now2).1
      = (practice_post_judging user problem row0 sub1 now1).1 ∧
    (practice_post_judging
        (practice_post_judging user problem row0 sub1 now1).1
        (practice_post_judging user problem row0 sub1 now1).2.1
        (some (practice_post_judging user problem row0 sub1 now1).2.2)
        sub2 now2).2.1.total_solved
      = (practice_post_judging user problem row0 sub1 now1).2.1.total_solved ∧
    (practice_post_judging
        (practice_post_judging user problem row0 sub1 now1).1
        (practice_post_judging user problem row0 sub1 now1).2.1
        (some (practice_post_judging user problem row0 sub1 now1).2.2)
        sub2 now2).2.2
      = (practice_post_judging user problem row0 sub1 now1).2.2 := by
  rcases row0 with _ | r
  · cases hdiff : problem.difficulty <;>
      simp [practice_post_judging, update_user_status, increment_submissions,
        increment_accepted, increment_solved, diffCount, hs1, hs2, hdiff]
  · have hr := hrow r rfl
    cases hdiff : problem.difficulty <;>
      simp [practice_post_judging, update_user_status, increment_submissions,
        increment_accepted, increment_solved, diffCount, hs1, hs2, hdiff, hr]

/-- C3 witness: the idempotence theorem evaluated for a fresh user, an
EASY problem, and the submission row produced by judging one accepted test
case. -/
theorem claim_first_solve_idempotent_witness :
    (practice_post_judging zeroUser easyProblem none acceptedSub 10).1.total_solved
        = zeroUser.total_solved + 1 ∧
    (practice_post_judging zeroUser easyProblem none acceptedSub 10).2.1.total_solved
        = easyProblem.total_solved + 1 := by
  have h := claim_first_solve_idempotent zeroUser easyProblem none
    acceptedSub acceptedSub 10 20 (fun r hr => by cases hr)
    (by decide) (by decide)
  exact ⟨h.1, h.2.1⟩

/-- C2 witness: the amended claim evaluated on the two-case
[WRONG_ANSWER, TIME_LIMIT_EXCEEDED] scenario. -/
theorem claim_verdict_precedence_witness :
    (judgePractice [some wrongAnswerParsed, some tleParsed]).1.verdict
      = failVerdict (some wrongAnswerParsed) ∧
    contestVerdictOf
        (judgeContest [some wrongAnswerParsed, some tleParsed] 100
          freshStatusRow freshParticipantRow 500 0)
      = some Verdict.TIME_LIMIT_EXCEEDED := by
  have h := claim_verdict_precedence [some wrongAnswerParsed, some tleParsed]
    (by decide) [some wrongAnswerParsed, some tleParsed] (by decide)
    100 freshStatusRow freshParticipantRow 500 0
  exact ⟨h.1 (some wrongAnswerParsed) (by decide),
         h.2 Verdict.TIME_LIMIT_EXCEEDED (by decide)⟩

/-- C6 witness: the amended claim evaluated on a one-case accepted
practice run and a zero-case contest run. -/
theorem claim_accepted_iff_witness :
    (judgePractice [some acceptedParsed]).1.verdict = Verdict.ACCEPTED ∧
    contestVerdictOf
        (judgeContest [] 100 freshStatusRow freshParticipantRow 500 0)
      = some Verdict.ACCEPTED := by
  have h := claim_accepted_iff [some acceptedParsed] (by decide) [] (by decide)
    100 freshStatusRow freshParticipantRow 500 0
  exact ⟨h.1.mpr ⟨by decide, by decide⟩, h.2.mpr (by decide)⟩

/-- C5 witness: the general practice statement evaluated at
[ACCEPTED] ++ failure :: [ACCEPTED]. -/
theorem claim_sandbox_failure_degrades_witness :
    (judgePractice ([some acceptedParsed] ++ none :: [some acceptedParsed])).2.map
        (·.status)
      = [some acceptedParsed].map rowStatusOc
          ++ TCStatus.RUNTIME_ERROR :: [some acceptedParsed].map rowStatusOc :=
  (claim_sandbox_failure_degrades [some acceptedParsed] [some acceptedParsed]
    (by decide) (by decide)).1


end CP
